import Mathlib

/-!
Shallow embedding of `src/threadcopy.c` (threadcopy v0.16) and verification
of its specification claims.

The embedding models:
- the exit-code and thread-status constants (`#define` block, lines 29-47);
- the delimiter tokenizer `get_filenames` (lines 496-526), with `strtok_r`
  modelled as a structural splitter over the character list;
- the pre-dispatch pipeline of `main` (lines 186-347): duplicate-argument
  check, list-length check, input validation, rlimit negotiation, dispatch,
  and the polling reaper loop, as a function `mainModel` from an environment
  (file system, rlimits, thread-creation outcomes, worker outcomes) to a
  structured `Outcome`;
- the worker `copyFile` (lines 353-494) as a trace of the writes it performs
  to its `filedata` record (`status`, `result`, `time_usec`, `time_sec`),
  with the transfer loop and the verification loop as explicit functions on
  byte lists.

File contents are byte lists; wall-clock instants are rational parameters of
the worker environment (the C code stores `double` seconds; exact rational
arithmetic abstracts the floating-point rounding, which no claim depends on).
-/

namespace Threadcopy

/-! ## Constants (threadcopy.c lines 29-47) -/

/-- Exit code `EXIT_OK` (line 30). -/
def EXIT_OK : Nat := 0

/-- Exit code `READ_ERROR` (line 31). -/
def READ_ERROR : Nat := 1

/-- Exit code `WRITE_ERROR` (line 32). -/
def WRITE_ERROR : Nat := 2

/-- Exit code `VERIFY_ERROR` (line 33). -/
def VERIFY_ERROR : Nat := 3

/-- Exit code `ARG_ERROR` (line 34). -/
def ARG_ERROR : Nat := 4

/-- Thread status `TS_INIT` (line 37). -/
def TS_INIT : Nat := 0

/-- Thread status `TS_RUNNING` (line 38). -/
def TS_RUNNING : Nat := 1

/-- Thread status `TS_DONE` (line 39). -/
def TS_DONE : Nat := 2

/-- Thread status `TS_CHECKED` (line 40). -/
def TS_CHECKED : Nat := 3

/-- Read/write block size `BLOCKSIZE` (line 43). -/
def BLOCKSIZE : Nat := 4096

/-- Hard maximum task-list length `FILES_MAX` (line 45). -/
def FILES_MAX : Nat := 10000

/-! ## The tokenizer `get_filenames` (lines 496-526) -/

/-- One pass of `strtok_r` splitting with delimiter character `|` (the
`DELIMITER` of line 49): walk the character list accumulating the current
token; a delimiter ends the current token (empty tokens are skipped, as
`strtok_r` skips runs of delimiters). -/
def strtokSplitAux : List Char → List Char → List (List Char)
  | [], acc => if acc.isEmpty then [] else [acc]
  | c :: cs, acc =>
      if c = '|' then
        if acc.isEmpty then strtokSplitAux cs [] else acc :: strtokSplitAux cs []
      else strtokSplitAux cs (acc ++ [c])

/-- The token list `strtok_r` produces from a string for delimiter `"|"`. -/
def tokenize (s : String) : List String :=
  (strtokSplitAux s.data []).map (fun cs => String.mk cs)

/-- `get_filenames` (lines 496-526): returns the count `numf` computed by the
function together with the list of tokens it stores into the file-name table.
The source stores tokens for loop indices `0 ≤ i < FILES_MAX`, sets
`numf = i` at the first `NULL` token, and then subtracts one whenever
`numf > 0` before returning (lines 523-525). A string without the delimiter
is stored whole with count 1 (lines 503-507); an empty string yields 0
(lines 509-512). -/
def get_filenames (farg : String) : Nat × List String :=
  if farg.length > 0 then
    if ¬ farg.data.contains '|' then (1, [farg])
    else
      let toks := tokenize farg
      let numf := if toks.length < FILES_MAX then toks.length else 0
      (if numf > 0 then numf - 1 else numf, toks.take FILES_MAX)
  else (0, [])

/-! ## The copy worker `copyFile` (lines 353-494)

The worker is modelled as the sequence of writes it performs to its
`filedata` record. File handles are modelled by `Bool` open-success flags and
byte-list contents in a `WorkerEnv`; `gettimeofday` results are rational
parameters (`t1` at entry, `t2` at the success-path exit). -/

/-- The mutable `filedata` fields the worker writes (lines 57-60). -/
inductive Field where
  | status
  | result
  | timeUsec
  | timeSec
deriving DecidableEq

/-- One write to the task's `filedata` record. -/
structure WEvent where
  field : Field
  value : ℚ

/-- Environment of one `copyFile` execution: open-call outcomes, stream
contents and error conditions, the verify flag, and the two `gettimeofday`
observations (`t1` at entry, lines 372; `t2` at the success exit, line 491).
`input` is what `fread` can deliver during the transfer; `readErr` selects a
stream error (rather than end-of-file) once `input` is exhausted. `writeCap`
is the number of bytes the output stream accepts before `fwrite` comes up
short (`none` = writes never fail). `vIn`/`vOut` are the two streams as
re-opened for verification (they can differ from the transfer streams if the
files change in between). -/
structure WorkerEnv where
  inOpenOk : Bool
  outOpenOk : Bool
  input : List Nat
  readErr : Bool
  writeCap : Option Nat
  verify : Bool
  vInOpen : Bool
  vOutOpen : Bool
  vIn : List Nat
  vOut : List Nat
  vInReadErr : Bool
  t1s : ℚ
  t1u : ℚ
  t2s : ℚ
  t2u : ℚ

/-- Transfer loop of `copyFile` (lines 396-419), with an explicit structural
fuel. Each iteration reads `min BLOCKSIZE |inD|` bytes and writes them;
`fread` returning `0` with end-of-file breaks the loop (line 400), with a
pending stream error instead producing `READ_ERROR` (lines 401-406); a short
write produces `WRITE_ERROR` (lines 409-417). Returns the list of blocks
passed to `fwrite` and the error, if any. Fuel `|inD|` is always sufficient
since every iteration consumes at least one input byte; the fuel-exhausted
case is never reached by `copyLoop` below. -/
def copyLoopGo : Nat → List Nat → Bool → Option Nat → Nat → List (List Nat) × Option Nat
  | _, [], readErr, _, _ => ([], if readErr then some READ_ERROR else none)
  | 0, _ :: _, _, _, _ => ([], none)
  | fuel + 1, a :: l, readErr, some c, written =>
      let n := min BLOCKSIZE (a :: l).length
      let blk := (a :: l).take n
      if c < written + n then ([blk], some WRITE_ERROR)
      else
        let rest := copyLoopGo fuel ((a :: l).drop n) readErr (some c) (written + n)
        (blk :: rest.1, rest.2)
  | fuel + 1, a :: l, readErr, none, written =>
      let n := min BLOCKSIZE (a :: l).length
      let blk := (a :: l).take n
      let rest := copyLoopGo fuel ((a :: l).drop n) readErr none (written + n)
      (blk :: rest.1, rest.2)

/-- The transfer loop run on the whole input (fuel = input length). -/
def copyLoop (inD : List Nat) (readErr : Bool) (cap : Option Nat) (written : Nat) :
    List (List Nat) × Option Nat :=
  copyLoopGo inD.length inD readErr cap written

/-- Verification loop of `copyFile` (lines 444-480), with an explicit
structural fuel. Each iteration reads `min BLOCKSIZE |inD|` bytes from the
input stream (end-of-file breaks the loop, line 448; a pending stream error
produces `READ_ERROR`), then requests exactly that many bytes from the
output stream — a short output read produces `READ_ERROR` (lines 456-465) —
and compares the two blocks, any mismatch producing `VERIFY_ERROR`
(lines 467-479). Returns the result code (`EXIT_OK` when the loop runs to
completion). Fuel `|inD|` is always sufficient. -/
def verifyLoopGo : Nat → List Nat → List Nat → Bool → Nat
  | _, [], _, readErr => if readErr then READ_ERROR else EXIT_OK
  | 0, _ :: _, _, _ => EXIT_OK
  | fuel + 1, a :: l, outD, readErr =>
      let n := min BLOCKSIZE (a :: l).length
      if outD.length < n then READ_ERROR
      else if (a :: l).take n ≠ outD.take n then VERIFY_ERROR
      else verifyLoopGo fuel ((a :: l).drop n) (outD.drop n) readErr

/-- The verification loop run on the whole input stream (fuel = input
length). -/
def verifyLoop (inD outD : List Nat) (readErr : Bool) : Nat :=
  verifyLoopGo inD.length inD outD readErr

/-- The two timer resets at worker entry (lines 368-369): `time_usec` and
`time_sec` are set to `0` before anything else. -/
def timeResets : List WEvent :=
  [⟨Field.timeUsec, 0⟩, ⟨Field.timeSec, 0⟩]

/-- The record writes of every error exit of `copyFile`: `status = TS_DONE`
followed by `result = code` (e.g. lines 382-383), then `pthread_exit`. -/
def exitErr (code : Nat) : List WEvent :=
  [⟨Field.status, (TS_DONE : ℚ)⟩, ⟨Field.result, (code : ℚ)⟩]

/-- The record writes of the successful exit of `copyFile` (lines 485-493):
`status = TS_DONE`, then `result = EXIT_OK`, then the elapsed-time fields
from the `t2` clock reading taken after the status write. -/
def successTail (env : WorkerEnv) : List WEvent :=
  [⟨Field.status, (TS_DONE : ℚ)⟩, ⟨Field.result, (EXIT_OK : ℚ)⟩,
   ⟨Field.timeUsec, (env.t2u - env.t1u) / 1000000⟩,
   ⟨Field.timeSec, env.t2s - env.t1s⟩]

/-- The full write trace of one `copyFile` execution (lines 353-494): timer
resets, then the branch structure of the source — input open (line 379),
output open (line 386), transfer loop, optional verification phase with its
two re-opens (lines 426 and 433) and the verify loop, and finally the
success writes. -/
def copyFileTrace (env : WorkerEnv) : List WEvent :=
  timeResets ++
  (if env.inOpenOk = false then exitErr READ_ERROR
   else if env.outOpenOk = false then exitErr WRITE_ERROR
   else
     match (copyLoop env.input env.readErr env.writeCap 0).2 with
     | some code => exitErr code
     | none =>
         if env.verify then
           if env.vInOpen = false then exitErr READ_ERROR
           else if env.vOutOpen = false then exitErr READ_ERROR
           else
             if verifyLoop env.vIn env.vOut env.vInReadErr = EXIT_OK then successTail env
             else exitErr (verifyLoop env.vIn env.vOut env.vInReadErr)
         else successTail env)

/-- Final value of a `filedata` field after a write trace: the value of the
last write to it, or `0` (the record is `memset` to zero in `main`,
line 254) if it was never written. -/
def finalVal (f : Field) (tr : List WEvent) : ℚ :=
  (((tr.filter (fun e => e.field = f)).getLast?).map (fun e => e.value)).getD 0

/-! ## The completion reaper (lines 286-331)

The reaper's view of task `i` is: the validated-input-path emptiness test
`ifiles[i][0] == '\0'` (line 295), whether a thread was started for it
(`status` was set to `TS_RUNNING`, line 280), the worker's eventual `result`,
and the polling round at which its `status = TS_DONE` publish becomes
visible. Worker completion times are environment data (`doneAt`), which
models the arbitrary interleaving of workers with the polling loop. -/

/-- Reaper-relevant state of one task slot. -/
structure RTask where
  pathEmpty : Bool
  spawned : Bool
  result : Nat
  doneAt : Nat

/-- The `status` field the reaper observes for a task at polling round `r`,
given whether the reaper has already marked it `TS_CHECKED`: a never-spawned
task keeps its `memset` value `TS_INIT`; a spawned task is `TS_RUNNING`
until round `doneAt`, then `TS_DONE` until checked. -/
def taskStatus (t : RTask) (r : Nat) (checked : Bool) : Nat :=
  if t.spawned = false then TS_INIT
  else if checked then TS_CHECKED
  else if r < t.doneAt then TS_RUNNING
  else TS_DONE

/-- The `cmd_result` update of the reaper (lines 302-321): a task observed
`TS_DONE` with `result == EXIT_OK` leaves the aggregate unchanged (only
debug output, lines 304-315), any other result overwrites it (line 320). -/
def reapStep (acc r : Nat) : Nat :=
  if r = EXIT_OK then acc else r

/-- One scan of the reaper's inner `for` loop (lines 289-324) at polling
round `r` over the task slots (paired with their checked flags), in index
order. Mirrors the branch order of the source: `TS_RUNNING` increments the
running count (lines 291-294); an empty validated input path is skipped
(lines 295-299); `TS_DONE` is processed and marked `TS_CHECKED`
(lines 300-323). Returns the updated slots, the running count, and the
results observed `TS_DONE` during this scan, in index order. -/
def scanPass (r : Nat) : List (RTask × Bool) → List (RTask × Bool) × Nat × List Nat
  | [] => ([], 0, [])
  | (t, ck) :: rest =>
      let res := scanPass r rest
      if taskStatus t r ck = TS_RUNNING then ((t, ck) :: res.1, res.2.1 + 1, res.2.2)
      else if t.pathEmpty then ((t, ck) :: res.1, res.2.1, res.2.2)
      else if taskStatus t r ck = TS_DONE then ((t, true) :: res.1, res.2.1, t.result :: res.2.2)
      else ((t, ck) :: res.1, res.2.1, res.2.2)

/-- The reaper's outer `while` loop (lines 286-331): scan, fold the observed
results into `cmd_result`, stop once a scan counts no running task
(lines 325-328). `fuel` bounds the number of polling rounds; `reaper` below
supplies enough fuel for every worker to have published. Returns the final
`cmd_result` together with the full observation sequence. -/
def reapLoop : Nat → Nat → List (RTask × Bool) → Nat → Nat × List Nat
  | 0, _, _, cmd => (cmd, [])
  | fuel + 1, r, st, cmd =>
      let res := scanPass r st
      let cmd2 := res.2.2.foldl reapStep cmd
      if res.2.1 = 0 then (cmd2, res.2.2)
      else
        let rest := reapLoop fuel (r + 1) res.1 cmd2
        (rest.1, res.2.2 ++ rest.2)

/-- Largest `doneAt` round among the task slots. -/
def maxDoneAt (ts : List RTask) : Nat :=
  ts.foldr (fun t m => max t.doneAt m) 0

/-- The complete reaper run: all checked flags start `false` (the `filedata`
array is zeroed, line 254, so no slot starts `TS_CHECKED`), `cmd_result`
starts `0` (line 93), polling starts at round `0`. At round `maxDoneAt ts`
no task can still be `TS_RUNNING`, so `maxDoneAt ts + 1` rounds always
suffice for the loop to exit on its own condition. -/
def reaper (ts : List RTask) : Nat × List Nat :=
  reapLoop (maxDoneAt ts + 1) 0 (ts.map (fun t => (t, false))) 0

/-- The last failing result of an observation sequence, `0` if none fails:
the reading of the aggregation policy stated by the specification. -/
def lastFail (obs : List Nat) : Nat :=
  (((obs.filter (fun x => x ≠ 0)).getLast?)).getD 0

/-! ## The `main` pipeline (lines 81-348) -/

/-- Environment of one run of `main`: whether each path can be opened for
reading (`fopen(..., "r")`, line 214), the size recorded for it
(`check_file_size`, line 226), the soft and hard `RLIMIT_NOFILE` limits
(line 230), per-index `pthread_create` success (line 272), each worker's
eventual result and completion round, and the `-v` flag. -/
structure Env where
  readable : String → Bool
  sizeOf : String → Nat
  rlimCur : Nat
  rlimMax : Nat
  spawnOk : Nat → Bool
  workerResult : Nat → Nat
  doneAt : Nat → Nat
  vflag : Bool

/-- One task slot as dispatch leaves it (the `filedata` record of
lines 52-62, restricted to the fields the orchestrator reads). -/
structure MTask where
  input_name : String
  output_name : String
  size : Nat
  spawned : Bool
  result : Nat
  verify : Bool

/-- The validated input path at index `i` (lines 212-228): the stored token,
or the empty-string sentinel when the open fails (line 220). -/
def validatedInput (env : Env) (itoks : List String) (i : Nat) : String :=
  let nm := itoks.getD i ""
  if env.readable nm then nm else ""

/-- The task slot the dispatch loop (lines 258-282) leaves at index `i`: an
invalidated pair is skipped before any field is set, so its record keeps the
`memset` zeroes (lines 260-265); otherwise the names, size and verify flag
are copied in (lines 266-269) and `pthread_create` is attempted — on success
the slot is `TS_RUNNING` with the worker's result, on failure the record
keeps `result = 0` and never runs (lines 272-281). -/
def buildTask (env : Env) (itoks otoks : List String) (i : Nat) : MTask :=
  let inm := validatedInput env itoks i
  if inm = "" then
    { input_name := "", output_name := "", size := 0, spawned := false,
      result := 0, verify := false }
  else
    { input_name := inm, output_name := otoks.getD i "", size := env.sizeOf inm,
      spawned := env.spawnOk i,
      result := if env.spawnOk i then env.workerResult i else 0,
      verify := env.vflag }

/-- The reaper's view of the task slot at index `i`. -/
def buildRTask (env : Env) (itoks otoks : List String) (i : Nat) : RTask :=
  let t := buildTask env itoks otoks i
  { pathEmpty := t.input_name = "", spawned := t.spawned,
    result := t.result, doneAt := env.doneAt i }

/-- How a run of `main` terminates. The three early-exit constructors carry
no task data because the corresponding `exit` calls happen before any task
record or thread exists: `dupArgsExit` at the duplicate-argument check
(lines 186-191, before `get_filenames` is called), `lenMismatchExit` at the
list-length check (lines 195-201), `rlimitExit` at the descriptor-limit
check (lines 232-239, before the dispatch loop). `completed` carries the
task slots after dispatch and the final `cmd_result`. -/
inductive Outcome where
  | dupArgsExit
  | lenMismatchExit (inumf onumf : Nat)
  | rlimitExit (ofMax rlimMax : Nat)
  | completed (tasks : List MTask) (code : Nat)

/-- The process exit code of each outcome: `exit(ARG_ERROR)` at line 190 and
line 200, `exit(READ_ERROR)` at line 238, and `return (cmd_result)` at
line 347. -/
def exitCodeOf : Outcome → Nat
  | Outcome.dupArgsExit => ARG_ERROR
  | Outcome.lenMismatchExit _ _ => ARG_ERROR
  | Outcome.rlimitExit _ _ => READ_ERROR
  | Outcome.completed _ code => code

/-- The `main` pipeline from the duplicate-argument check onward
(lines 186-347): duplicate `-i`/`-o` argument exit; tokenization of both
lists; length-mismatch exit; validation; descriptor-limit negotiation with
its fatal exit; dispatch; reaper; final `cmd_result`. -/
def mainModel (ivalue ovalue : String) (env : Env) : Outcome :=
  if ivalue = ovalue then Outcome.dupArgsExit
  else
    let inumf := (get_filenames ivalue).1
    let itoks := (get_filenames ivalue).2
    let onumf := (get_filenames ovalue).1
    let otoks := (get_filenames ovalue).2
    if inumf ≠ onumf then Outcome.lenMismatchExit inumf onumf
    else
      let ofMax := inumf + onumf
      let tasks := (List.range inumf).map (buildTask env itoks otoks)
      let rtasks := (List.range inumf).map (buildRTask env itoks otoks)
      let rest := Outcome.completed tasks (reaper rtasks).1
      if env.rlimCur < ofMax then
        if ofMax > env.rlimMax then Outcome.rlimitExit ofMax env.rlimMax
        else rest
      else rest

/-! ## Helper lemmas about the reaper -/

/-- A nonempty list has a last element. -/
theorem getLast?_cons_isSome (a : α) (l : List α) : ((a :: l).getLast?).isSome = true := by
  induction l generalizing a with
  | nil => rfl
  | cons b m ih => rw [List.getLast?_cons_cons]; exact ih b

/-- Folding `reapStep` over an observation sequence yields the last nonzero
entry, or the initial accumulator if every entry is zero. -/
theorem foldl_reapStep_eq (l : List Nat) :
    ∀ c, List.foldl reapStep c l = ((l.filter (fun x => x ≠ 0)).getLast?).getD c := by
  induction l with
  | nil => intro c; rfl
  | cons x l ih =>
      intro c
      by_cases hx : x = 0
      · subst hx
        rw [List.foldl_cons, ih]
        have hstep : reapStep c 0 = c := by simp [reapStep, EXIT_OK]
        rw [hstep, List.filter_cons_of_neg (by simp)]
      · rw [List.foldl_cons, ih]
        have hstep : reapStep c x = x := by simp [reapStep, EXIT_OK, hx]
        rw [hstep, List.filter_cons_of_pos (by simpa using hx)]
        cases hfl : l.filter (fun x => x ≠ 0) with
        | nil => rfl
        | cons y ys =>
            rw [List.getLast?_cons_cons]
            rcases Option.isSome_iff_exists.mp (getLast?_cons_isSome y ys) with ⟨z, hz⟩
            rw [hz]; rfl

/-- The final `cmd_result` of the reaper loop is the `reapStep` fold of the
initial accumulator over the observation sequence. -/
theorem reapLoop_fst :
    ∀ fuel r st cmd, (reapLoop fuel r st cmd).1 =
      List.foldl reapStep cmd (reapLoop fuel r st cmd).2 := by
  intro fuel
  induction fuel with
  | zero => intro r st cmd; rfl
  | succ fuel ih =>
      intro r st cmd
      show (reapLoop (fuel + 1) r st cmd).1 = _
      rw [reapLoop]
      by_cases h : (scanPass r st).2.1 = 0
      · rw [if_pos h]
      · rw [if_neg h]
        rw [List.foldl_append, ← ih]

/-- Every result observed during one scan belongs to a spawned task of the
scanned slots. -/
theorem scanPass_obs (r : Nat) :
    ∀ st x, x ∈ (scanPass r st).2.2 →
      ∃ t ∈ st.map Prod.fst, t.spawned = true ∧ x = t.result := by
  intro st
  induction st with
  | nil => intro x hx; simp [scanPass] at hx
  | cons p rest ih =>
      intro x hx
      obtain ⟨t, ck⟩ := p
      rw [scanPass] at hx
      by_cases h1 : taskStatus t r ck = TS_RUNNING
      · rw [if_pos h1] at hx
        obtain ⟨u, hu, hsp, hxx⟩ := ih x hx
        exact ⟨u, List.mem_cons_of_mem _ hu, hsp, hxx⟩
      · rw [if_neg h1] at hx
        by_cases h2 : t.pathEmpty = true
        · rw [if_pos h2] at hx
          obtain ⟨u, hu, hsp, hxx⟩ := ih x hx
          exact ⟨u, List.mem_cons_of_mem _ hu, hsp, hxx⟩
        · rw [if_neg h2] at hx
          by_cases h3 : taskStatus t r ck = TS_DONE
          · rw [if_pos h3] at hx
            rcases List.mem_cons.mp hx with hxx | hxx
            · refine ⟨t, List.mem_cons_self _ _, ?_, hxx⟩
              cases hh : t.spawned
              · rw [taskStatus, if_pos hh] at h3
                exact absurd h3 (by decide)
              · rfl
            · obtain ⟨u, hu, hsp, hxx⟩ := ih x hxx
              exact ⟨u, List.mem_cons_of_mem _ hu, hsp, hxx⟩
          · rw [if_neg h3] at hx
            obtain ⟨u, hu, hsp, hxx⟩ := ih x hx
            exact ⟨u, List.mem_cons_of_mem _ hu, hsp, hxx⟩

/-- A scan changes only the checked flags, never the task slots. -/
theorem scanPass_tasks (r : Nat) :
    ∀ st, ((scanPass r st).1).map Prod.fst = st.map Prod.fst := by
  intro st
  induction st with
  | nil => rfl
  | cons p rest ih =>
      obtain ⟨t, ck⟩ := p
      rw [scanPass]
      by_cases h1 : taskStatus t r ck = TS_RUNNING
      · rw [if_pos h1]; show t :: _ = t :: _; rw [ih]
      · rw [if_neg h1]
        by_cases h2 : t.pathEmpty = true
        · rw [if_pos h2]; show t :: _ = t :: _; rw [ih]
        · rw [if_neg h2]
          by_cases h3 : taskStatus t r ck = TS_DONE
          · rw [if_pos h3]; show t :: _ = t :: _; rw [ih]
          · rw [if_neg h3]; show t :: _ = t :: _; rw [ih]

/-- Every result the reaper loop ever observes belongs to a spawned task of
the initial slots. -/
theorem reapLoop_obs :
    ∀ fuel r st cmd x, x ∈ (reapLoop fuel r st cmd).2 →
      ∃ t ∈ st.map Prod.fst, t.spawned = true ∧ x = t.result := by
  intro fuel
  induction fuel with
  | zero => intro r st cmd x hx; simp [reapLoop] at hx
  | succ fuel ih =>
      intro r st cmd x hx
      rw [reapLoop] at hx
      by_cases h : (scanPass r st).2.1 = 0
      · rw [if_pos h] at hx
        exact scanPass_obs r st x hx
      · rw [if_neg h] at hx
        rcases List.mem_append.mp hx with hxx | hxx
        · exact scanPass_obs r st x hxx
        · obtain ⟨t, ht, hsp, hxx⟩ := ih (r + 1) (scanPass r st).1 _ x hxx
          rw [scanPass_tasks] at ht
          exact ⟨t, ht, hsp, hxx⟩

/-- When every spawned task succeeded, the reaper's aggregate is `EXIT_OK`. -/
theorem reaper_all_ok (ts : List RTask)
    (h : ∀ t ∈ ts, t.spawned = true → t.result = EXIT_OK) :
    (reaper ts).1 = EXIT_OK := by
  have hobs : ∀ x ∈ (reaper ts).2, ¬ x ≠ 0 := by
    intro x hx
    obtain ⟨t, ht, hsp, hx⟩ := reapLoop_obs _ _ _ _ x hx
    have ht2 : t ∈ ts := by simpa using ht
    simp [hx, h t ht2 hsp, EXIT_OK]
  have h1 : (reaper ts).1 = List.foldl reapStep 0 (reaper ts).2 := reapLoop_fst _ _ _ _
  rw [h1, foldl_reapStep_eq, List.filter_eq_nil_iff.mpr (by intro a ha; simpa using hobs a ha)]
  rfl

/-! ## Helper lemmas about the worker -/

/-- The transfer loop only ever fails with `READ_ERROR` or `WRITE_ERROR`. -/
theorem copyLoopGo_err :
    ∀ fuel inD re cap w c, (copyLoopGo fuel inD re cap w).2 = some c →
      c = READ_ERROR ∨ c = WRITE_ERROR := by
  intro fuel
  induction fuel with
  | zero =>
      intro inD re cap w c h
      cases inD with
      | nil =>
          cases re
          · exact Option.noConfusion h
          · exact Or.inl (Option.some.inj h).symm
      | cons a l => exact Option.noConfusion h
  | succ fuel ih =>
      intro inD re cap w c h
      cases inD with
      | nil =>
          cases re
          · exact Option.noConfusion h
          · exact Or.inl (Option.some.inj h).symm
      | cons a l =>
          cases cap with
          | some cc =>
              simp only [copyLoopGo] at h
              by_cases hlt : cc < w + min BLOCKSIZE (a :: l).length
              · rw [if_pos hlt] at h
                exact Or.inr (Option.some.inj h).symm
              · rw [if_neg hlt] at h
                exact ih _ _ _ _ _ h
          | none =>
              simp only [copyLoopGo] at h
              exact ih _ _ _ _ _ h

/-- Error codes of the whole transfer loop. -/
theorem copyLoop_err (inD : List Nat) (re : Bool) (cap : Option Nat) (w c : Nat)
    (h : (copyLoop inD re cap w).2 = some c) : c = READ_ERROR ∨ c = WRITE_ERROR :=
  copyLoopGo_err inD.length inD re cap w c h

/-- Unfolding of the verification loop on a nonempty input stream. -/
theorem verifyLoopGo_cons (fuel : Nat) (inD outD : List Nat) (re : Bool) (hne : inD ≠ []) :
    verifyLoopGo (fuel + 1) inD outD re =
      if outD.length < min BLOCKSIZE inD.length then READ_ERROR
      else if inD.take (min BLOCKSIZE inD.length) ≠ outD.take (min BLOCKSIZE inD.length) then
        VERIFY_ERROR
      else verifyLoopGo fuel (inD.drop (min BLOCKSIZE inD.length))
        (outD.drop (min BLOCKSIZE inD.length)) re := by
  cases inD with
  | nil => exact absurd rfl hne
  | cons a l => simp only [verifyLoopGo]

/-- When the output stream is a proper prefix of the input stream (the
output side is exhausted first), the verification loop fails with
`READ_ERROR`: the short `fread` on the output side at lines 456-465. -/
theorem verifyLoopGo_short_output (fuel : Nat) :
    ∀ outD ext : List Nat, ext ≠ [] → (outD ++ ext).length ≤ fuel →
      verifyLoopGo fuel (outD ++ ext) outD false = READ_ERROR := by
  induction fuel with
  | zero =>
      intro outD ext hne hle
      exfalso
      have hpos : 0 < ext.length := List.length_pos.mpr hne
      rw [List.length_append] at hle
      omega
  | succ fuel ih =>
      intro outD ext hne hle
      have hne2 : outD ++ ext ≠ [] := by
        intro hcon
        exact hne (List.append_eq_nil.mp hcon).2
      rw [verifyLoopGo_cons fuel _ _ _ hne2]
      by_cases hshort : outD.length < min BLOCKSIZE (outD ++ ext).length
      · rw [if_pos hshort]
      · rw [if_neg hshort]
        have hn2 : min BLOCKSIZE (outD ++ ext).length ≤ outD.length := Nat.not_lt.mp hshort
        rw [if_neg (not_not_intro (List.take_append_of_le_length hn2))]
        rw [List.drop_append_of_le_length hn2]
        apply ih (outD.drop (min BLOCKSIZE (outD ++ ext).length)) ext hne
        have hpos : 0 < (outD ++ ext).length := by
          rw [List.length_append]
          have := List.length_pos.mpr hne
          omega
        have h1 : 1 ≤ min BLOCKSIZE (outD ++ ext).length :=
          le_min (by norm_num [BLOCKSIZE]) hpos
        rw [List.length_append, List.length_drop]
        rw [List.length_append] at hle
        omega

/-- When the input stream is exhausted first, the loop breaks at the input
end-of-file (line 448) and any remaining output bytes are never examined:
the result is `EXIT_OK`. -/
theorem verifyLoopGo_extra_output (fuel : Nat) :
    ∀ inD ext : List Nat, inD.length ≤ fuel →
      verifyLoopGo fuel inD (inD ++ ext) false = EXIT_OK := by
  induction fuel with
  | zero =>
      intro inD ext hle
      have h0 : inD = [] := List.eq_nil_of_length_eq_zero (Nat.le_zero.mp hle)
      subst h0
      rfl
  | succ fuel ih =>
      intro inD ext hle
      cases inD with
      | nil => rfl
      | cons a l =>
          rw [verifyLoopGo_cons fuel _ _ _ (by simp)]
          have hn : min BLOCKSIZE (a :: l).length ≤ (a :: l).length := Nat.min_le_right _ _
          rw [if_neg (by rw [List.length_append]; omega)]
          rw [if_neg (not_not_intro (List.take_append_of_le_length hn).symm)]
          rw [List.drop_append_of_le_length hn]
          apply ih
          have h1 : 1 ≤ min BLOCKSIZE (a :: l).length :=
            le_min (by norm_num [BLOCKSIZE]) (by simp)
          rw [List.length_drop]
          have hlen : (a :: l).length ≤ fuel + 1 := hle
          omega

/-- Final field values after an error exit: the `result` field holds the
error code and both elapsed-time fields still hold the reset value `0`. -/
theorem finalVal_err_spec (c : Nat) :
    finalVal Field.result (timeResets ++ exitErr c) = (c : ℚ) ∧
    finalVal Field.timeSec (timeResets ++ exitErr c) = 0 ∧
    finalVal Field.timeUsec (timeResets ++ exitErr c) = 0 := by
  refine ⟨?_, ?_, ?_⟩ <;> simp [finalVal, timeResets, exitErr]

/-- Final field values after the successful exit: `result = EXIT_OK` and the
elapsed-time fields hold the `t2 - t1` differences of lines 492-493. -/
theorem finalVal_success_spec (env : WorkerEnv) :
    finalVal Field.result (timeResets ++ successTail env) = ((EXIT_OK : Nat) : ℚ) ∧
    finalVal Field.timeSec (timeResets ++ successTail env) = env.t2s - env.t1s ∧
    finalVal Field.timeUsec (timeResets ++ successTail env) = (env.t2u - env.t1u) / 1000000 := by
  refine ⟨?_, ?_, ?_⟩ <;> simp [finalVal, timeResets, successTail]

/-- Every `copyFile` execution produces either an error trace
`timeResets ++ exitErr c` with a nonzero code `c`, or the success trace
`timeResets ++ successTail env`. -/
theorem copyFileTrace_cases (env : WorkerEnv) :
    (∃ c : Nat, c ≠ EXIT_OK ∧ copyFileTrace env = timeResets ++ exitErr c) ∨
    copyFileTrace env = timeResets ++ successTail env := by
  unfold copyFileTrace
  by_cases h1 : env.inOpenOk = false
  · rw [if_pos h1]
    exact Or.inl ⟨READ_ERROR, by decide, rfl⟩
  · rw [if_neg h1]
    by_cases h2 : env.outOpenOk = false
    · rw [if_pos h2]
      exact Or.inl ⟨WRITE_ERROR, by decide, rfl⟩
    · rw [if_neg h2]
      cases hc : (copyLoop env.input env.readErr env.writeCap 0).2 with
      | some code =>
          refine Or.inl ⟨code, ?_, rfl⟩
          rcases copyLoop_err _ _ _ _ _ hc with h | h <;> subst h <;> decide
      | none =>
          by_cases hv : env.verify = true
          · rw [if_pos hv]
            by_cases h3 : env.vInOpen = false
            · rw [if_pos h3]
              exact Or.inl ⟨READ_ERROR, by decide, rfl⟩
            · rw [if_neg h3]
              by_cases h4 : env.vOutOpen = false
              · rw [if_pos h4]
                exact Or.inl ⟨READ_ERROR, by decide, rfl⟩
              · rw [if_neg h4]
                by_cases hvr : verifyLoop env.vIn env.vOut env.vInReadErr = EXIT_OK
                · rw [if_pos hvr]
                  exact Or.inr rfl
                · rw [if_neg hvr]
                  exact Or.inl ⟨verifyLoop env.vIn env.vOut env.vInReadErr, hvr, rfl⟩
          · rw [if_neg hv]
            exact Or.inr rfl

/-! ## Claims about the pipeline and the reaper -/

/-- C3: the process-level result is the result of the last failing task in
the reaper's observation sequence (`(reaper ts).2`, which lists the `TS_DONE`
observations in polling-round order and, within a round, in index order); a
task observed with `result = EXIT_OK` never changes the accumulated result;
when no dispatched task fails the aggregate is `EXIT_OK`; and the process
exit code of a completed run is exactly that aggregate (line 347). -/
theorem reaper_last_failure_wins (ts : List RTask) :
    (reaper ts).1 = lastFail (reaper ts).2 ∧
    (∀ acc, reapStep acc EXIT_OK = acc) ∧
    ((∀ t ∈ ts, t.spawned = true → t.result = EXIT_OK) → (reaper ts).1 = EXIT_OK) ∧
    (∀ (ms : List MTask) (c : Nat), exitCodeOf (Outcome.completed ms c) = c) := by
  refine ⟨?_, ?_, reaper_all_ok ts, fun ms c => rfl⟩
  · have h1 : (reaper ts).1 = List.foldl reapStep 0 (reaper ts).2 := reapLoop_fst _ _ _ _
    rw [h1, foldl_reapStep_eq]
    rfl
  · intro acc
    simp [reapStep, EXIT_OK]

/-- Witness for C3 on a concrete two-task run in which both spawned tasks
succeed: the aggregate is `EXIT_OK`. -/
theorem reaper_last_failure_wins_witness :
    (reaper [⟨false, true, EXIT_OK, 0⟩, ⟨false, true, EXIT_OK, 1⟩]).1 = EXIT_OK :=
  (reaper_last_failure_wins [⟨false, true, EXIT_OK, 0⟩, ⟨false, true, EXIT_OK, 1⟩]).2.2.1
    (by decide)

/-- C10: when the `-i` argument string equals the `-o` argument string, the
run exits with `ARG_ERROR` at the duplicate-argument check (lines 186-191);
the `dupArgsExit` outcome is produced before `get_filenames` is called, any
file is validated, or any task record or thread exists. -/
theorem duplicate_args_exit_arg_error (s : String) (env : Env) :
    mainModel s s env = Outcome.dupArgsExit ∧
    exitCodeOf (mainModel s s env) = ARG_ERROR := by
  have h : mainModel s s env = Outcome.dupArgsExit := by
    unfold mainModel
    rw [if_pos rfl]
  exact ⟨h, by rw [h]; rfl⟩

/-- C6: when the two parsed lists have different counts, the run exits with
`ARG_ERROR` at the length check (lines 195-201); the `lenMismatchExit`
outcome is produced before any task record or thread exists. -/
theorem list_length_mismatch_exit (ivalue ovalue : String) (env : Env)
    (hcount : (get_filenames ivalue).1 ≠ (get_filenames ovalue).1) :
    mainModel ivalue ovalue env =
      Outcome.lenMismatchExit (get_filenames ivalue).1 (get_filenames ovalue).1 ∧
    exitCodeOf (mainModel ivalue ovalue env) = ARG_ERROR := by
  have hne : ivalue ≠ ovalue := by
    intro h
    exact hcount (by rw [h])
  have h : mainModel ivalue ovalue env =
      Outcome.lenMismatchExit (get_filenames ivalue).1 (get_filenames ovalue).1 := by
    unfold mainModel
    rw [if_neg hne, if_pos hcount]
  exact ⟨h, by rw [h]; rfl⟩

/-- Witness for C6: lists of 3 and 1 entries (the tokenizer counts
`"a|b|c|d"` as 3 and `"x|y"` as 1) exit with `ARG_ERROR`. -/
theorem list_length_mismatch_exit_witness :
    mainModel "a|b|c|d" "x|y"
        { readable := fun _ => true, sizeOf := fun _ => 0, rlimCur := 100, rlimMax := 100,
          spawnOk := fun _ => true, workerResult := fun _ => 0, doneAt := fun _ => 0,
          vflag := false } =
      Outcome.lenMismatchExit (get_filenames "a|b|c|d").1 (get_filenames "x|y").1 ∧
    exitCodeOf (mainModel "a|b|c|d" "x|y"
        { readable := fun _ => true, sizeOf := fun _ => 0, rlimCur := 100, rlimMax := 100,
          spawnOk := fun _ => true, workerResult := fun _ => 0, doneAt := fun _ => 0,
          vflag := false }) = ARG_ERROR :=
  list_length_mismatch_exit "a|b|c|d" "x|y" _ (by decide)

/-- C1 counterexample: with two tasks per list (budget `2N = 4`) and a hard
limit of 3, the run does abort before dispatch at the descriptor-limit
check, but the source exits with `exit(READ_ERROR)` (line 238), i.e. exit
code 1, not the argument/resource code 4 the claim states. -/
theorem rlimit_exit_code_counterexample :
    mainModel "a|b|c" "x|y|z"
        { readable := fun _ => true, sizeOf := fun _ => 0, rlimCur := 1, rlimMax := 3,
          spawnOk := fun _ => true, workerResult := fun _ => 0, doneAt := fun _ => 0,
          vflag := false } = Outcome.rlimitExit 4 3 ∧
    exitCodeOf (mainModel "a|b|c" "x|y|z"
        { readable := fun _ => true, sizeOf := fun _ => 0, rlimCur := 1, rlimMax := 3,
          spawnOk := fun _ => true, workerResult := fun _ => 0, doneAt := fun _ => 0,
          vflag := false }) = READ_ERROR ∧
    READ_ERROR ≠ ARG_ERROR := by
  exact ⟨rfl, rfl, by decide⟩

/-- C1 (amended): when the required descriptor budget `inumf + onumf = 2N`
exceeds the hard limit (and the soft limit does not exceed the hard limit,
as `getrlimit` guarantees), the run aborts at the descriptor-limit check,
before any task record or thread exists — but with exit code `READ_ERROR`
(1), not `ARG_ERROR` (4). -/
theorem rlimit_exceeded_aborts_before_dispatch (ivalue ovalue : String) (env : Env)
    (hne : ivalue ≠ ovalue)
    (heq : (get_filenames ivalue).1 = (get_filenames ovalue).1)
    (hcl : env.rlimCur ≤ env.rlimMax)
    (hex : env.rlimMax < (get_filenames ivalue).1 + (get_filenames ovalue).1) :
    mainModel ivalue ovalue env =
      Outcome.rlimitExit ((get_filenames ivalue).1 + (get_filenames ovalue).1) env.rlimMax ∧
    exitCodeOf (mainModel ivalue ovalue env) = READ_ERROR := by
  have h : mainModel ivalue ovalue env =
      Outcome.rlimitExit ((get_filenames ivalue).1 + (get_filenames ovalue).1) env.rlimMax := by
    unfold mainModel
    rw [if_neg hne, if_neg (not_not_intro heq), if_pos (lt_of_le_of_lt hcl hex), if_pos hex]
  exact ⟨h, by rw [h]; rfl⟩

/-- Witness for the amended C1: two tasks per list, budget 4, hard limit 3. -/
theorem rlimit_exceeded_aborts_before_dispatch_witness :
    mainModel "a|b|c" "x|y|z"
        { readable := fun _ => true, sizeOf := fun _ => 0, rlimCur := 1, rlimMax := 3,
          spawnOk := fun _ => true, workerResult := fun _ => 0, doneAt := fun _ => 0,
          vflag := false } =
      Outcome.rlimitExit ((get_filenames "a|b|c").1 + (get_filenames "x|y|z").1) 3 ∧
    exitCodeOf (mainModel "a|b|c" "x|y|z"
        { readable := fun _ => true, sizeOf := fun _ => 0, rlimCur := 1, rlimMax := 3,
          spawnOk := fun _ => true, workerResult := fun _ => 0, doneAt := fun _ => 0,
          vflag := false }) = READ_ERROR :=
  rlimit_exceeded_aborts_before_dispatch "a|b|c" "x|y|z" _
    (by decide) (by decide) (by decide) (by decide)

/-- C9: the tokenizer undercounts multi-entry lists by one: `"a|b"` holds
2 tokens (both below `FILES_MAX`), both are stored, yet `get_filenames`
returns 1 (the `numf -= 1` of lines 523-524). -/
theorem get_filenames_undercounts_stored :
    (get_filenames "a|b").1 = 1 ∧ (get_filenames "a|b").2.length = 2 ∧ 2 < FILES_MAX := by
  exact ⟨rfl, rfl, by decide⟩

/-- A task slot whose input turned out unreadable carries an `EXIT_OK`
result and is never spawned; a readable slot carries its worker's result
exactly when the spawn succeeded. -/
theorem buildRTask_ok_of_workers_ok (env : Env) (itoks otoks : List String) (i : Nat)
    (hok : env.readable (itoks.getD i "") = true →
      env.spawnOk i = true ∧ env.workerResult i = EXIT_OK) :
    (buildRTask env itoks otoks i).spawned = true →
    (buildRTask env itoks otoks i).result = EXIT_OK := by
  intro _
  by_cases hv : validatedInput env itoks i = ""
  · simp [buildRTask, buildTask, hv, EXIT_OK]
  · have hr : env.readable (itoks.getD i "") = true := by
      cases hh : env.readable (itoks.getD i "") with
      | false =>
          refine absurd ?_ hv
          show (if env.readable (itoks.getD i "") = true then itoks.getD i "" else "") = ""
          rw [hh]
          rfl
      | true => rfl
    obtain ⟨hspawn, hres⟩ := hok hr
    simp [buildRTask, buildTask, hv, hspawn, hres]

/-- C5: an index whose input cannot be opened at validation is turned into
the zeroed, never-spawned slot (both paths the empty sentinel, lines
212-228 and 260-265), it is excluded from aggregation, and when every other
task spawns and succeeds the run completes with aggregate `EXIT_OK` and
process exit code 0. -/
theorem missing_input_silently_skipped (ivalue ovalue : String) (env : Env) (j : Nat)
    (hne : ivalue ≠ ovalue)
    (heq : (get_filenames ivalue).1 = (get_filenames ovalue).1)
    (hrl : (get_filenames ivalue).1 + (get_filenames ovalue).1 ≤ env.rlimMax)
    (hj : j < (get_filenames ivalue).1)
    (hbad : env.readable ((get_filenames ivalue).2.getD j "") = false)
    (hok : ∀ i, i < (get_filenames ivalue).1 →
        env.readable ((get_filenames ivalue).2.getD i "") = true →
        env.spawnOk i = true ∧ env.workerResult i = EXIT_OK) :
    mainModel ivalue ovalue env =
      Outcome.completed
        ((List.range (get_filenames ivalue).1).map
          (buildTask env (get_filenames ivalue).2 (get_filenames ovalue).2)) EXIT_OK ∧
    ((List.range (get_filenames ivalue).1).map
        (buildTask env (get_filenames ivalue).2 (get_filenames ovalue).2)).get? j =
      some { input_name := "", output_name := "", size := 0, spawned := false,
             result := 0, verify := false } ∧
    exitCodeOf (mainModel ivalue ovalue env) = EXIT_OK := by
  have hall : ∀ t ∈ (List.range (get_filenames ivalue).1).map
      (buildRTask env (get_filenames ivalue).2 (get_filenames ovalue).2),
      t.spawned = true → t.result = EXIT_OK := by
    intro t ht
    obtain ⟨i, hi, rfl⟩ := List.mem_map.mp ht
    exact buildRTask_ok_of_workers_ok env _ _ i (hok i (List.mem_range.mp hi))
  have hagg := reaper_all_ok _ hall
  have hmain : mainModel ivalue ovalue env =
      Outcome.completed
        ((List.range (get_filenames ivalue).1).map
          (buildTask env (get_filenames ivalue).2 (get_filenames ovalue).2)) EXIT_OK := by
    simp only [mainModel, if_neg hne, if_neg (not_not_intro heq), hagg]
    by_cases hcur : env.rlimCur < (get_filenames ivalue).1 + (get_filenames ovalue).1
    · rw [if_pos hcur, if_neg (by omega :
        ¬ (get_filenames ivalue).1 + (get_filenames ovalue).1 > env.rlimMax)]
    · rw [if_neg hcur]
  refine ⟨hmain, ?_, by rw [hmain]; rfl⟩
  rw [List.get?_map, List.get?_range hj]
  show some (buildTask env (get_filenames ivalue).2 (get_filenames ovalue).2 j) = _
  have hv : validatedInput env (get_filenames ivalue).2 j = "" := by
    show (if env.readable ((get_filenames ivalue).2.getD j "") = true
        then (get_filenames ivalue).2.getD j "" else "") = ""
    rw [hbad]
    rfl
  rw [show buildTask env (get_filenames ivalue).2 (get_filenames ovalue).2 j =
      { input_name := "", output_name := "", size := 0, spawned := false,
        result := 0, verify := false } from by simp [buildTask, hv]]

/-- Witness for C5: of the two tasks of `"a|b|c"`, the second input `"b"`
is unreadable; the run completes with exit code 0 and slot 1 zeroed. -/
theorem missing_input_silently_skipped_witness :
    mainModel "a|b|c" "x|y|z"
        { readable := fun s => !(s == "b"), sizeOf := fun _ => 0, rlimCur := 100,
          rlimMax := 100, spawnOk := fun _ => true, workerResult := fun _ => 0,
          doneAt := fun _ => 0, vflag := false } =
      Outcome.completed
        ((List.range (get_filenames "a|b|c").1).map
          (buildTask
            { readable := fun s => !(s == "b"), sizeOf := fun _ => 0, rlimCur := 100,
              rlimMax := 100, spawnOk := fun _ => true, workerResult := fun _ => 0,
              doneAt := fun _ => 0, vflag := false }
            (get_filenames "a|b|c").2 (get_filenames "x|y|z").2)) EXIT_OK ∧
    ((List.range (get_filenames "a|b|c").1).map
        (buildTask
          { readable := fun s => !(s == "b"), sizeOf := fun _ => 0, rlimCur := 100,
            rlimMax := 100, spawnOk := fun _ => true, workerResult := fun _ => 0,
            doneAt := fun _ => 0, vflag := false }
          (get_filenames "a|b|c").2 (get_filenames "x|y|z").2)).get? 1 =
      some { input_name := "", output_name := "", size := 0, spawned := false,
             result := 0, verify := false } ∧
    exitCodeOf (mainModel "a|b|c" "x|y|z"
        { readable := fun s => !(s == "b"), sizeOf := fun _ => 0, rlimCur := 100,
          rlimMax := 100, spawnOk := fun _ => true, workerResult := fun _ => 0,
          doneAt := fun _ => 0, vflag := false }) = EXIT_OK :=
  missing_input_silently_skipped "a|b|c" "x|y|z" _ 1
    (by decide) (by decide) (by decide) (by decide) (by decide) (by decide)

/-! ## Claims about the copy worker -/

/-- C2 counterexample: a verify-enabled task whose transfer succeeded
(input `[5]` copied without error) but whose output stream holds one extra
byte at verification time (`vIn = [5]`, `vOut = [5, 6]`): the input stream
is exhausted first, the loop breaks at the input end-of-file, and the task
ends `result = EXIT_OK` — the length mismatch is silently truncated, not
turned into `READ_ERROR` as the claim states. -/
theorem verify_truncation_counterexample :
    finalVal Field.result (copyFileTrace
      { inOpenOk := true, outOpenOk := true, input := [5], readErr := false,
        writeCap := none, verify := true, vInOpen := true, vOutOpen := true,
        vIn := [5], vOut := [5, 6], vInReadErr := false,
        t1s := 0, t1u := 0, t2s := 0, t2u := 0 }) = ((EXIT_OK : Nat) : ℚ) ∧
    ([5] : List Nat).length < ([5, 6] : List Nat).length ∧
    EXIT_OK ≠ READ_ERROR := by
  exact ⟨rfl, by decide, by decide⟩

/-- C2 (amended): the verification loop surfaces a length mismatch as
`READ_ERROR` only when the output stream is exhausted before the input (the
output is a proper prefix of the input stream); when the input stream is
exhausted before the output, the remaining output bytes are silently
ignored and the loop returns `EXIT_OK`. -/
theorem verify_length_mismatch_amended :
    (∀ outD ext : List Nat, ext ≠ [] → verifyLoop (outD ++ ext) outD false = READ_ERROR) ∧
    (∀ inD ext : List Nat, verifyLoop inD (inD ++ ext) false = EXIT_OK) := by
  constructor
  · intro outD ext hne
    exact verifyLoopGo_short_output (outD ++ ext).length outD ext hne (le_refl _)
  · intro inD ext
    exact verifyLoopGo_extra_output inD.length inD ext (le_refl _)

/-- Witness for the amended C2: output one byte short of the input gives
`READ_ERROR`; output one byte longer than the input gives `EXIT_OK`. -/
theorem verify_length_mismatch_amended_witness :
    verifyLoop ([5] ++ [6]) [5] false = READ_ERROR ∧
    verifyLoop [5] ([5] ++ [7]) false = EXIT_OK :=
  ⟨verify_length_mismatch_amended.1 [5] [6] (by decide),
   verify_length_mismatch_amended.2 [5] [7]⟩

/-- C4 counterexample: in the worker execution whose input open fails, the
write trace is reset, reset, `status = TS_DONE`, `result = READ_ERROR` —
the write to `result` (position 3) happens after the `status = TS_DONE`
publish (position 2), so the `Done` publish is not the worker's last write
to the record (source lines 382-383 set `status` before `result`). -/
theorem done_publish_not_last_write_counterexample :
    (copyFileTrace
      { inOpenOk := false, outOpenOk := true, input := [], readErr := false,
        writeCap := none, verify := false, vInOpen := true, vOutOpen := true,
        vIn := [], vOut := [], vInReadErr := false,
        t1s := 0, t1u := 0, t2s := 0, t2u := 0 }).get? 2 =
      some ⟨Field.status, ((TS_DONE : Nat) : ℚ)⟩ ∧
    (copyFileTrace
      { inOpenOk := false, outOpenOk := true, input := [], readErr := false,
        writeCap := none, verify := false, vInOpen := true, vOutOpen := true,
        vIn := [], vOut := [], vInReadErr := false,
        t1s := 0, t1u := 0, t2s := 0, t2u := 0 }).get? 3 =
      some ⟨Field.result, ((READ_ERROR : Nat) : ℚ)⟩ := by
  exact ⟨rfl, rfl⟩

/-- C4 (amended): every worker execution writes `status = TS_DONE` exactly
once, but the `TS_DONE` publish is not the last write to the record: the
`result` write immediately follows it on every path (and the elapsed-time
writes follow both on the successful path). -/
theorem done_published_exactly_once_then_result (env : WorkerEnv) :
    ∃ pre r tail, copyFileTrace env =
        pre ++ ⟨Field.status, ((TS_DONE : Nat) : ℚ)⟩ :: ⟨Field.result, r⟩ :: tail ∧
      (∀ e ∈ pre, e.field ≠ Field.status) ∧
      (∀ e ∈ tail, e.field ≠ Field.status) := by
  rcases copyFileTrace_cases env with ⟨c, _, hc⟩ | hc
  · exact ⟨timeResets, (c : ℚ), [], by rw [hc]; rfl, by decide, by simp⟩
  · refine ⟨timeResets, ((EXIT_OK : Nat) : ℚ),
      [⟨Field.timeUsec, (env.t2u - env.t1u) / 1000000⟩, ⟨Field.timeSec, env.t2s - env.t1s⟩],
      by rw [hc]; rfl, by decide, ?_⟩
    intro e he
    rcases List.mem_cons.mp he with h | h
    · rw [h]; intro hcon; exact Field.noConfusion hcon
    · rcases List.mem_cons.mp h with h2 | h2
      · rw [h2]; intro hcon; exact Field.noConfusion hcon
      · exact absurd h2 (List.not_mem_nil e)

/-- Witness for the amended C4 at a concrete environment. -/
theorem done_published_exactly_once_then_result_witness :
    ∃ pre r tail, copyFileTrace
        { inOpenOk := false, outOpenOk := true, input := [], readErr := false,
          writeCap := none, verify := false, vInOpen := true, vOutOpen := true,
          vIn := [], vOut := [], vInReadErr := false,
          t1s := 0, t1u := 0, t2s := 0, t2u := 0 } =
        pre ++ ⟨Field.status, ((TS_DONE : Nat) : ℚ)⟩ :: ⟨Field.result, r⟩ :: tail ∧
      (∀ e ∈ pre, e.field ≠ Field.status) ∧
      (∀ e ∈ tail, e.field ≠ Field.status) :=
  done_published_exactly_once_then_result
    { inOpenOk := false, outOpenOk := true, input := [], readErr := false,
      writeCap := none, verify := false, vInOpen := true, vOutOpen := true,
      vIn := [], vOut := [], vInReadErr := false,
      t1s := 0, t1u := 0, t2s := 0, t2u := 0 }

/-- C7: a zero-length input performs zero `fwrite` iterations in the
transfer loop, the verification loop on the two empty re-opened streams
returns `EXIT_OK` immediately, and the task ends with `result = EXIT_OK`
(whether or not verification is enabled). -/
theorem zero_length_input_ok (env : WorkerEnv)
    (hin : env.input = []) (hre : env.readErr = false)
    (h1 : env.inOpenOk = true) (h2 : env.outOpenOk = true)
    (h3 : env.vInOpen = true) (h4 : env.vOutOpen = true)
    (h5 : env.vIn = []) (h6 : env.vOut = []) (h7 : env.vInReadErr = false) :
    (copyLoop env.input env.readErr env.writeCap 0).1 = [] ∧
    verifyLoop env.vIn env.vOut env.vInReadErr = EXIT_OK ∧
    finalVal Field.result (copyFileTrace env) = ((EXIT_OK : Nat) : ℚ) := by
  have hcl : copyLoop env.input env.readErr env.writeCap 0 = ([], none) := by
    rw [hin, hre]
    rfl
  have hvok : verifyLoop env.vIn env.vOut env.vInReadErr = EXIT_OK := by
    rw [h5, h6, h7]
    rfl
  refine ⟨by rw [hcl], hvok, ?_⟩
  have htr : copyFileTrace env = timeResets ++ successTail env := by
    unfold copyFileTrace
    rw [h1, if_neg (by decide : ¬ (true = false))]
    rw [h2, if_neg (by decide : ¬ (true = false))]
    rw [hcl]
    cases hv : env.verify
    · rw [if_neg (by decide : ¬ (false = true))]
    · rw [if_pos rfl, h3, if_neg (by decide : ¬ (true = false)),
        h4, if_neg (by decide : ¬ (true = false)), if_pos hvok]
  rw [htr]
  exact (finalVal_success_spec env).1

/-- Witness for C7: the concrete empty-input, verify-enabled environment. -/
theorem zero_length_input_ok_witness :
    (copyLoop ([] : List Nat) false none 0).1 = [] ∧
    verifyLoop [] [] false = EXIT_OK ∧
    finalVal Field.result (copyFileTrace
      { inOpenOk := true, outOpenOk := true, input := [], readErr := false,
        writeCap := none, verify := true, vInOpen := true, vOutOpen := true,
        vIn := [], vOut := [], vInReadErr := false,
        t1s := 0, t1u := 0, t2s := 0, t2u := 0 }) = ((EXIT_OK : Nat) : ℚ) :=
  zero_length_input_ok
    { inOpenOk := true, outOpenOk := true, input := [], readErr := false,
      writeCap := none, verify := true, vInOpen := true, vOutOpen := true,
      vIn := [], vOut := [], vInReadErr := false,
      t1s := 0, t1u := 0, t2s := 0, t2u := 0 }
    rfl rfl rfl rfl rfl rfl rfl rfl rfl

/-- C8 counterexample: a worker whose input open fails entered at wall-clock
second 0 and exited at second 5 (`t1s = 0`, `t2s = 5`), yet its elapsed
field still holds the reset value `0`, not the 5-second duration: the
timing writes of lines 491-493 are only reached on the fully successful
path. -/
theorem elapsed_not_set_on_error_counterexample :
    finalVal Field.timeSec (copyFileTrace
      { inOpenOk := false, outOpenOk := true, input := [], readErr := false,
        writeCap := none, verify := false, vInOpen := true, vOutOpen := true,
        vIn := [], vOut := [], vInReadErr := false,
        t1s := 0, t1u := 0, t2s := 5, t2u := 0 }) = 0 ∧
    (5 : ℚ) - 0 = 5 ∧ (0 : ℚ) ≠ 5 := by
  exact ⟨rfl, by norm_num, by norm_num⟩

/-- C8 (amended): the elapsed-time fields are set to the measured wall-clock
difference only on the fully successful exit (where `result = EXIT_OK`); on
every error exit they keep the reset value `0` written at worker entry. -/
theorem elapsed_set_only_on_success (env : WorkerEnv) :
    finalVal Field.timeSec (copyFileTrace env) =
      (if finalVal Field.result (copyFileTrace env) = ((EXIT_OK : Nat) : ℚ)
       then env.t2s - env.t1s else 0) ∧
    finalVal Field.timeUsec (copyFileTrace env) =
      (if finalVal Field.result (copyFileTrace env) = ((EXIT_OK : Nat) : ℚ)
       then (env.t2u - env.t1u) / 1000000 else 0) := by
  rcases copyFileTrace_cases env with ⟨c, hc0, hc⟩ | hc
  · rw [hc]
    obtain ⟨h1, h2, h3⟩ := finalVal_err_spec c
    rw [h1, h2, h3]
    have hne : ¬ ((c : ℚ) = ((EXIT_OK : Nat) : ℚ)) := by
      rw [Nat.cast_inj]
      exact hc0
    rw [if_neg hne, if_neg hne]
    exact ⟨rfl, rfl⟩
  · rw [hc]
    obtain ⟨h1, h2, h3⟩ := finalVal_success_spec env
    rw [h1, h2, h3, if_pos rfl, if_pos rfl]
    exact ⟨rfl, rfl⟩

end Threadcopy
